import Mathlib

/-!
Shallow embedding of `scripts/scrape_urls.py`: a parallel URL scraper that
loads a deduplicated URL list, fetches each URL on a worker pool, collects
one result dictionary per request (synthesizing a "Worker crashed" entry
when a worker raises), sorts the results by their original index, and
renders them.

Python dictionaries produced by `fetch_url` and by the scheduler are
modelled by the structure `Entry`, where a field of type `Option _` set to
`none` means the key is absent from the dictionary.  Effects of the network
and codec layers (`urllib.request.Request`, `urlopen`, `bytes.decode`) are
modelled by an explicit environment `FetchEnv` describing what those calls
would do for the one request under consideration.
-/

/-- Rounding of a rational to the nearest integer, ties to even: the
behaviour of Python's builtin `round` on the exact value. -/
def round_half_even (q : ℚ) : ℤ :=
  let f : ℤ := ⌊q⌋
  let frac : ℚ := q - (f : ℚ)
  if frac < 1/2 then f
  else if 1/2 < frac then f + 1
  else if f % 2 = 0 then f else f + 1

/-- Python `round(q, 3)` on the exact value of `q`. -/
def pyRound3 (q : ℚ) : ℚ := ((round_half_even (q * 1000) : ℤ) : ℚ) / 1000

/-- One result dictionary, as built by `fetch_url` (lines 147-182) or the
scheduler's defensive catch (lines 303-309).  `none` = key absent.  For
`status` the outer `Option` is key presence and the inner one is the Python
value `None` that `getattr(response, "status", None)` may produce. -/
structure Entry where
  index : Nat
  url : String
  status : Option (Option Int) := none
  content_type : Option String := none
  elapsed_seconds : Option ℚ := none
  truncated : Option Bool := none
  content : Option String := none
  error : Option String := none
deriving DecidableEq, Repr

/-- Placeholder entry used as the default of `List.getD`. -/
def dummyEntry : Entry := { index := 0, url := "" }

/-- The response object seen inside the `with urlopen(...)` block on the
success path: its `status` attribute (possibly absent / `None`), the
`Content-Type` header with `""` default, the declared charset if any, and
the body bytes available to `read`. -/
structure HttpResponse where
  status : Option Int
  contentType : String
  charset : Option String
  available : List Nat
deriving Repr

/-- Outcome of `urlopen` for this request: a response, or one of the three
exception classes distinguished by `fetch_url`.  For `HTTPError`,
`headersCT` is `some ct` when `exc.headers` is present and
`exc.headers.get("Content-Type", "")` returns `ct`, and `none` when
`exc.headers` is falsy. -/
inductive UrlOpenResult where
  | success (r : HttpResponse)
  | httpError (code : Int) (reason : String) (headersCT : Option String)
  | urlError (reason : String)
  | otherError (msg : String)
deriving Repr

/-- Environment for one `fetch_url` call: what the library layers do.
`requestError = some m` means `urllib.request.Request(url, ...)` itself
raises (as CPython's `Request` does, with `ValueError("unknown url type")`,
when the URL has no scheme); `openResult` is what `urlopen` does;
`elapsed` is the `perf_counter` delta observed at the recording point;
`decode cs bs` is `bytes.decode(cs, errors="replace")`, `none` meaning the
codec lookup raises `LookupError`; `decodeUtf8` is the total
`bytes.decode("utf-8", errors="replace")` fallback. -/
structure FetchEnv where
  requestError : Option String
  openResult : UrlOpenResult
  elapsed : ℚ
  decode : String → List Nat → Option String
  decodeUtf8 : List Nat → String

/-- Body decoding of `fetch_url` lines 140-144: try the declared charset
(falling back to the literal `"utf-8"` name when none is declared), and on
`LookupError` decode as UTF-8. -/
def decodeBody (env : FetchEnv) (charset : Option String) (raw : List Nat) : String :=
  match env.decode (charset.getD "utf-8") raw with
  | some body => body
  | none => env.decodeUtf8 raw

/-- `fetch_url` (lines 119-182).  `Except.error m` models an exception with
message `m` escaping the function: the only way that happens is the
`Request` construction on line 128, which sits outside the `try` block.
Everything raised inside the `with urlopen` block is caught by the three
`except` arms and turned into a result dictionary. -/
def fetch_url (index : Nat) (url : String) (timeout : ℚ) (max_bytes : Nat)
    (user_agent : String) (env : FetchEnv) : Except String Entry :=
  match env.requestError with
  | some m => .error m
  | none =>
    match env.openResult with
    | .success r =>
        let raw := r.available.take (max_bytes + 1)
        let truncated : Bool := decide (raw.length > max_bytes)
        let kept := if truncated then raw.take max_bytes else raw
        let body := decodeBody env r.charset kept
        .ok { index := index, url := url,
              status := some r.status,
              content_type := some r.contentType,
              elapsed_seconds := some (pyRound3 env.elapsed),
              truncated := some truncated,
              content := some body }
    | .httpError code reason headersCT =>
        .ok { index := index, url := url,
              status := some (some code),
              content_type := some (headersCT.getD ""),
              elapsed_seconds := some (pyRound3 env.elapsed),
              error := some ("HTTPError: " ++ toString code ++ " " ++ reason) }
    | .urlError reason =>
        .ok { index := index, url := url,
              elapsed_seconds := some (pyRound3 env.elapsed),
              error := some ("URLError: " ++ reason) }
    | .otherError msg =>
        .ok { index := index, url := url,
              elapsed_seconds := some (pyRound3 env.elapsed),
              error := some ("Unexpected error: " ++ msg) }

/-- Whitespace in the sense of Python's `str.strip()` with no argument,
restricted to the ASCII whitespace characters. -/
def isPySpace (c : Char) : Bool :=
  c = ' ' || c = '\t' || c = '\n' || c = '\r' || c = '\x0b' || c = '\x0c'

/-- Python `raw.strip()`: remove leading and trailing whitespace. -/
def pyStrip (s : String) : String :=
  String.mk (((s.data.dropWhile isPySpace).reverse.dropWhile isPySpace).reverse)

/-- Python `line.startswith(p)`. -/
def pyStartsWith (p s : String) : Bool :=
  p.data.isPrefixOf s.data

/-- The `_iter_lines` filter of `read_urls_file` (lines 105-110) applied to
one raw line: strip surrounding whitespace, drop the line when it is empty
or starts with `#`. -/
def iterLine (raw : String) : Option String :=
  let line := pyStrip raw
  if line = "" || pyStartsWith "#" line then none else some line

/-- `read_urls_file` (lines 104-116) on the lines of one list file or of
standard input. -/
def read_urls_file (lines : List String) : List String :=
  lines.filterMap iterLine

/-- The deduplication loop of `load_urls` (lines 94-101): keep a `url` when
it is non-empty and not seen before; `seen` accumulates kept entries. -/
def dedupAux (seen : List String) : List String → List String
  | [] => []
  | url :: rest =>
      if url ≠ "" ∧ url ∉ seen then url :: dedupAux (url :: seen) rest
      else dedupAux seen rest

/-- The final `seen` set after the deduplication loop has consumed a list;
proof device for splitting `dedupAux` over an append. -/
def dedupSeen (seen : List String) : List String → List String
  | [] => seen
  | url :: rest =>
      if url ≠ "" ∧ url ∉ seen then dedupSeen (url :: seen) rest
      else dedupSeen seen rest

/-- `load_urls` (lines 85-101): direct `--url` arguments first, then the
processed lines of each `--urls-file`, then deduplication. -/
def load_urls (direct : List String) (fileLines : List (List String)) : List String :=
  dedupAux [] (direct ++ (fileLines.map read_urls_file).flatten)

/-- Truthiness of Python's `args.max_workers` (an `int` or `None`). -/
def truthyOptInt : Option Int → Bool
  | none => false
  | some n => n != 0

/-- The expression `os.cpu_count() or 4` of line 192: `os.cpu_count()`
returns `None` or an int, and a falsy value is replaced by 4. -/
def pyCpu : Option Nat → Nat
  | some c => if c ≠ 0 then c else 4
  | none => 4

/-- `compute_workers` (lines 185-193). -/
def compute_workers (max_workers : Option Int) (cpu_count : Option Nat)
    (total_urls : Nat) : Int :=
  if total_urls ≤ 1 then 1
  else if truthyOptInt max_workers then max 1 (max_workers.getD 0)
  else max 1 (min (total_urls : Int) ((pyCpu cpu_count : Int) * 5))

/-- Run configuration handed from `main` to each `fetch_url` call. -/
structure Config where
  timeout : ℚ
  max_bytes : Nat
  user_agent : String

/-- What the scheduler loop (lines 298-309) appends for the completed
future of request `i`: `future.result()` when the worker returned, and the
synthesized dictionary `{"index": i, "url": urls[i], "error": "Worker
crashed: <exc>"}` when it raised. -/
def collectStep (urls : List String) (cfg : Config) (envs : Nat → FetchEnv)
    (i : Nat) : Entry :=
  match fetch_url i (urls.getD i "") cfg.timeout cfg.max_bytes cfg.user_agent (envs i) with
  | .ok e => e
  | .error m => { index := i, url := urls.getD i "",
                  error := some ("Worker crashed: " ++ m) }

/-- The collection loop over `as_completed` (lines 298-309): `order` is the
completion order of the futures, a permutation of the request indices. -/
def gatherResults (urls : List String) (cfg : Config) (envs : Nat → FetchEnv)
    (order : List Nat) : List Entry :=
  order.map (collectStep urls cfg envs)

/-- Ascending order on the `"index"` key, the sort key of line 312. -/
def entryLE (a b : Entry) : Prop := a.index ≤ b.index

instance : DecidableRel entryLE := fun a b => Nat.decLe a.index b.index

/-- `results.sort(key=lambda entry: entry["index"])` (line 312): a stable
sort ascending by index. -/
def sortResults (results : List Entry) : List Entry :=
  List.insertionSort entryLE results

/-- Outcome of a run of `main` as far as the core pipeline goes: an early
abort with an exit code and a stderr line, or completion with the
finalized (sorted) result set that is handed to `write_output`. -/
inductive RunResult where
  | aborted (exitCode : Nat) (stderrLine : String)
  | finished (results : List Entry)
deriving Repr, DecidableEq

/-- The core of `main` (lines 273-312): resolve the URL list; abort with
exit status 1 and the "no targets" diagnostic when it is empty; otherwise
fetch every URL on the pool, collect in completion order `order`, and sort
by index.  Output rendering (lines 313-320) consumes the finalized list
and is outside the modelled core. -/
def run_main (direct : List String) (fileLines : List (List String))
    (cfg : Config) (envs : Nat → FetchEnv) (order : List Nat) : RunResult :=
  let urls := load_urls direct fileLines
  if urls.isEmpty then
    .aborted 1 "No URLs provided. Use --url or --urls-file to supply targets."
  else
    .finished (sortResults (gatherResults urls cfg envs order))

/-- Environment of a worker whose `Request` construction raises: CPython's
`Request` raises `ValueError("unknown url type: ...")` for a URL without a
scheme, before `urlopen` is ever reached. -/
def crashEnv : FetchEnv :=
  { requestError := some "boom",
    openResult := .urlError "never reached",
    elapsed := 0,
    decode := fun _ _ => none,
    decodeUtf8 := fun _ => "" }

/-- Environment of a worker whose fetch succeeds with a small body. -/
def okEnv : FetchEnv :=
  { requestError := none,
    openResult := .success { status := some 200, contentType := "text/html",
                             charset := none, available := [104, 105] },
    elapsed := 0,
    decode := fun _ _ => some "hi",
    decodeUtf8 := fun _ => "hi" }

/-- Environment of a worker whose `urlopen` raises `URLError` (DNS
failure, connection refused, TLS failure, or expired timeout). -/
def urlErrEnv : FetchEnv :=
  { requestError := none,
    openResult := .urlError "timed out",
    elapsed := 0,
    decode := fun _ _ => none,
    decodeUtf8 := fun _ => "" }

/-- Environment for the truncation scenario: three body bytes available
with a one-byte cap. -/
def truncEnv : FetchEnv :=
  { requestError := none,
    openResult := .success { status := some 200, contentType := "ct",
                             charset := none, available := [1, 2, 3] },
    elapsed := 0,
    decode := fun _ _ => some "D",
    decodeUtf8 := fun _ => "U" }

/-- A sample run configuration. -/
def cfgEx : Config := { timeout := 15, max_bytes := 1000000, user_agent := "UA" }

/-- The response inside `truncEnv`. -/
def respW : HttpResponse :=
  { status := some 200, contentType := "ct", charset := none, available := [1, 2, 3] }

/-- The result dictionary `fetch_url` builds in `truncEnv` with a
one-byte cap. -/
def entryW : Entry :=
  { index := 0, url := "u", status := some (some 200), content_type := some "ct",
    elapsed_seconds := some (pyRound3 0), truncated := some true, content := some "D" }

/-- `s` carries the verbatim leading text `p`. -/
def prefixedBy (p s : String) : Prop := ∃ t, s = p ++ t

/-- The result dictionary `fetch_url` builds in `urlErrEnv`. -/
def urlErrEntryW : Entry :=
  { index := 0, url := "u", elapsed_seconds := some (pyRound3 0),
    error := some ("URLError: " ++ "timed out") }

lemma mem_dedupAux : ∀ (l seen : List String) (u : String),
    u ∈ dedupAux seen l ↔ (u ∈ l ∧ u ≠ "" ∧ u ∉ seen) := by
  intro l
  induction l with
  | nil => intro seen u; simp [dedupAux]
  | cons x rest ih =>
      intro seen u
      by_cases hx : x ≠ "" ∧ x ∉ seen
      · rw [dedupAux, if_pos hx]
        simp only [List.mem_cons, ih (x :: seen) u]
        constructor
        · rintro (rfl | ⟨hm, hne, hns⟩)
          · exact ⟨Or.inl rfl, hx.1, hx.2⟩
          · exact ⟨Or.inr hm, hne, fun hs => hns (Or.inr hs)⟩
        · rintro ⟨hmem | hmem, hne, hns⟩
          · exact Or.inl hmem
          · by_cases hux : u = x
            · exact Or.inl hux
            · refine Or.inr ⟨hmem, hne, fun hc => ?_⟩
              rcases hc with h | h
              · exact hux h
              · exact hns h
      · rw [dedupAux, if_neg hx, ih seen u]
        simp only [List.mem_cons]
        constructor
        · rintro ⟨hm, hne, hns⟩
          exact ⟨Or.inr hm, hne, hns⟩
        · rintro ⟨hmem | hmem, hne, hns⟩
          · exfalso
            subst hmem
            rcases not_and_or.mp hx with h | h
            · exact hne (not_not.mp h)
            · exact hns (not_not.mp h)
          · exact ⟨hmem, hne, hns⟩

lemma sublist_dedupAux : ∀ (l seen : List String), (dedupAux seen l).Sublist l := by
  intro l
  induction l with
  | nil => intro seen; simp [dedupAux]
  | cons x rest ih =>
      intro seen
      by_cases hx : x ≠ "" ∧ x ∉ seen
      · rw [dedupAux, if_pos hx]
        exact (ih (x :: seen)).cons₂ x
      · rw [dedupAux, if_neg hx]
        exact (ih seen).cons x

lemma pairwise_indexOf_dedupAux : ∀ (l seen : List String),
    (dedupAux seen l).Pairwise (fun u v => l.indexOf u < l.indexOf v) := by
  intro l
  induction l with
  | nil => intro seen; simp [dedupAux]
  | cons x rest ih =>
      intro seen
      by_cases hx : x ≠ "" ∧ x ∉ seen
      · rw [dedupAux, if_pos hx]
        refine List.Pairwise.cons ?_ ?_
        · intro v hv
          have hvm := (mem_dedupAux rest (x :: seen) v).mp hv
          have hvx : v ≠ x := fun hc => hvm.2.2 (hc ▸ List.mem_cons_self x seen)
          rw [List.indexOf_cons_self, List.indexOf_cons_ne rest hvx.symm]
          exact Nat.succ_pos _
        · refine (ih (x :: seen)).imp_of_mem ?_
          intro u v hu hv huv
          have hux : u ≠ x :=
            fun hc => ((mem_dedupAux rest (x :: seen) u).mp hu).2.2
              (hc ▸ List.mem_cons_self x seen)
          have hvx : v ≠ x :=
            fun hc => ((mem_dedupAux rest (x :: seen) v).mp hv).2.2
              (hc ▸ List.mem_cons_self x seen)
          rw [List.indexOf_cons_ne rest hux.symm, List.indexOf_cons_ne rest hvx.symm]
          exact Nat.succ_lt_succ huv
      · rw [dedupAux, if_neg hx]
        refine (ih seen).imp_of_mem ?_
        intro u v hu hv huv
        have hmem_u := (mem_dedupAux rest seen u).mp hu
        have hmem_v := (mem_dedupAux rest seen v).mp hv
        have hne : ∀ w : String, w ∈ dedupAux seen rest → w ≠ x := by
          intro w hw hc
          have hmw := (mem_dedupAux rest seen w).mp hw
          rcases not_and_or.mp hx with h | h
          · exact hmw.2.1 (hc.trans (not_not.mp h))
          · exact hmw.2.2 (hc ▸ not_not.mp h)
        rw [List.indexOf_cons_ne rest (hne u hu).symm, List.indexOf_cons_ne rest (hne v hv).symm]
        exact Nat.succ_lt_succ huv

lemma nodup_dedupAux (l seen : List String) : (dedupAux seen l).Nodup := by
  refine (pairwise_indexOf_dedupAux l seen).imp ?_
  intro a b hab hc
  exact absurd hab (hc ▸ Nat.lt_irrefl _)

lemma dedupAux_append : ∀ (l₁ l₂ seen : List String),
    dedupAux seen (l₁ ++ l₂) = dedupAux seen l₁ ++ dedupAux (dedupSeen seen l₁) l₂ := by
  intro l₁
  induction l₁ with
  | nil => intro l₂ seen; simp [dedupAux, dedupSeen]
  | cons x rest ih =>
      intro l₂ seen
      by_cases hx : x ≠ "" ∧ x ∉ seen
      · rw [List.cons_append, dedupAux, if_pos hx, dedupAux, if_pos hx, dedupSeen, if_pos hx,
          ih l₂ (x :: seen), List.cons_append]
      · rw [List.cons_append, dedupAux, if_neg hx, dedupAux, if_neg hx, dedupSeen, if_neg hx,
          ih l₂ seen]

lemma fetch_url_ok_index (i : Nat) (url : String) (t : ℚ) (mb : Nat) (ua : String)
    (env : FetchEnv) (e : Entry) (h : fetch_url i url t mb ua env = .ok e) :
    e.index = i := by
  obtain ⟨re, op, el, d, d8⟩ := env
  cases re with
  | some m => exact absurd h (by simp [fetch_url])
  | none => cases op <;> (cases h; rfl)

lemma fetch_url_ok_url (i : Nat) (url : String) (t : ℚ) (mb : Nat) (ua : String)
    (env : FetchEnv) (e : Entry) (h : fetch_url i url t mb ua env = .ok e) :
    e.url = url := by
  obtain ⟨re, op, el, d, d8⟩ := env
  cases re with
  | some m => exact absurd h (by simp [fetch_url])
  | none => cases op <;> (cases h; rfl)

lemma fetch_url_ok_elapsed (i : Nat) (url : String) (t : ℚ) (mb : Nat) (ua : String)
    (env : FetchEnv) (e : Entry) (h : fetch_url i url t mb ua env = .ok e) :
    e.elapsed_seconds = some (pyRound3 env.elapsed) := by
  obtain ⟨re, op, el, d, d8⟩ := env
  cases re with
  | some m => exact absurd h (by simp [fetch_url])
  | none => cases op <;> (cases h; rfl)

lemma collectStep_index (urls : List String) (cfg : Config) (envs : Nat → FetchEnv)
    (i : Nat) : (collectStep urls cfg envs i).index = i := by
  unfold collectStep
  cases h : fetch_url i (urls.getD i "") cfg.timeout cfg.max_bytes cfg.user_agent (envs i) with
  | ok e => exact fetch_url_ok_index _ _ _ _ _ _ _ h
  | error m => rfl

lemma collectStep_url (urls : List String) (cfg : Config) (envs : Nat → FetchEnv)
    (i : Nat) : (collectStep urls cfg envs i).url = urls.getD i "" := by
  unfold collectStep
  cases h : fetch_url i (urls.getD i "") cfg.timeout cfg.max_bytes cfg.user_agent (envs i) with
  | ok e => exact fetch_url_ok_url _ _ _ _ _ _ _ h
  | error m => rfl

lemma gather_map_index (urls : List String) (cfg : Config) (envs : Nat → FetchEnv)
    (order : List Nat) :
    (gatherResults urls cfg envs order).map Entry.index = order := by
  unfold gatherResults
  rw [List.map_map]
  have : Entry.index ∘ collectStep urls cfg envs = id := by
    funext i
    exact collectStep_index urls cfg envs i
  rw [this, List.map_id]

instance : IsTotal Entry entryLE := ⟨fun a b => Nat.le_total a.index b.index⟩

instance : IsTrans Entry entryLE := ⟨fun _ _ _ h₁ h₂ => Nat.le_trans h₁ h₂⟩

lemma sortResults_perm (results : List Entry) : (sortResults results).Perm results :=
  List.perm_insertionSort entryLE results

lemma sortResults_sorted (results : List Entry) : (sortResults results).Sorted entryLE :=
  List.sorted_insertionSort entryLE results

lemma final_map_index (urls : List String) (cfg : Config) (envs : Nat → FetchEnv)
    (order : List Nat) (hperm : order.Perm (List.range urls.length)) :
    (sortResults (gatherResults urls cfg envs order)).map Entry.index =
      List.range urls.length := by
  refine List.eq_of_perm_of_sorted ?_ ?_ (List.sorted_le_range urls.length)
  · refine ((sortResults_perm _).map Entry.index).trans ?_
    rw [gather_map_index urls cfg envs order]
    exact hperm
  · exact List.pairwise_map.mpr (sortResults_sorted (gatherResults urls cfg envs order))

lemma final_entry_at (urls : List String) (cfg : Config) (envs : Nat → FetchEnv)
    (order : List Nat) (hperm : order.Perm (List.range urls.length))
    (i : Nat) (hi : i < urls.length) :
    ((sortResults (gatherResults urls cfg envs order)).getD i dummyEntry).index = i ∧
    ((sortResults (gatherResults urls cfg envs order)).getD i dummyEntry).url =
      urls.getD i "" := by
  have hmap := final_map_index urls cfg envs order hperm
  have h1 : ((sortResults (gatherResults urls cfg envs order)).map Entry.index)[i]? =
      some i := by
    rw [hmap]
    exact List.getElem?_range hi
  rw [List.getElem?_map] at h1
  cases hget : (sortResults (gatherResults urls cfg envs order))[i]? with
  | none => rw [hget] at h1; exact absurd h1 (by simp)
  | some e =>
      rw [hget] at h1
      have hidx : e.index = i := by
        simpa using h1
      have hgetD : (sortResults (gatherResults urls cfg envs order)).getD i dummyEntry = e := by
        rw [List.getD_eq_getElem?_getD, hget]
        rfl
      have hmem : e ∈ gatherResults urls cfg envs order :=
        (sortResults_perm _).mem_iff.mp (List.getElem?_mem hget)
      obtain ⟨j, hj, hcoll⟩ := List.mem_map.mp hmem
      have hji : j = i := by
        rw [← hidx, ← hcoll]
        exact (collectStep_index urls cfg envs j).symm
      have hurl : e.url = urls.getD i "" := by
        rw [← hcoll, ← hji]
        exact collectStep_url urls cfg envs j
      rw [hgetD]
      exact ⟨hidx, hurl⟩

lemma not_prefixedBy_both (p q : String) (n : Nat) (c d : Char)
    (hc : p.data[n]? = some c) (hd : q.data[n]? = some d) (hcd : c ≠ d)
    (s : String) (hp : prefixedBy p s) (hq : prefixedBy q s) : False := by
  obtain ⟨t, ht⟩ := hp
  obtain ⟨u, hu⟩ := hq
  have h1 : s.data = p.data ++ t.data := by rw [ht]; rfl
  have h2 : s.data = q.data ++ u.data := by rw [hu]; rfl
  have hcn : n < p.data.length := (List.getElem?_eq_some_iff.mp hc).1
  have hdn : n < q.data.length := (List.getElem?_eq_some_iff.mp hd).1
  have e1 : s.data[n]? = some c := by
    rw [h1, List.getElem?_append_left hcn]
    exact hc
  have e2 : s.data[n]? = some d := by
    rw [h2, List.getElem?_append_left hdn]
    exact hd
  have : some c = some d := e1.symm.trans e2
  exact hcd (Option.some.injEq c d ▸ this)

/-- C1: over a run of n fetch requests collected in arbitrary completion
order, the ResultSet (before and after sorting) has exactly n results, one
per request index; and for every request whose worker task raised out of
`fetch_url`, the set contains a synthesized failure carrying the request's
original index and url and the error message "Worker crashed: <message>". -/
theorem scheduler_one_result_per_request
    (urls : List String) (cfg : Config) (envs : Nat → FetchEnv) (order : List Nat)
    (hperm : order.Perm (List.range urls.length)) :
    (gatherResults urls cfg envs order).length = urls.length ∧
    (sortResults (gatherResults urls cfg envs order)).length = urls.length ∧
    ((gatherResults urls cfg envs order).map Entry.index).Perm
      (List.range urls.length) ∧
    (∀ i ∈ order, ∀ m,
      fetch_url i (urls.getD i "") cfg.timeout cfg.max_bytes cfg.user_agent (envs i) =
        .error m →
      ∃ e ∈ gatherResults urls cfg envs order,
        e.index = i ∧ e.url = urls.getD i "" ∧
        e.error = some ("Worker crashed: " ++ m)) := by
  have hlen : (gatherResults urls cfg envs order).length = urls.length := by
    unfold gatherResults
    rw [List.length_map, hperm.length_eq, List.length_range]
  refine ⟨hlen, ?_, ?_, ?_⟩
  · rw [(sortResults_perm _).length_eq]
    exact hlen
  · rw [gather_map_index]
    exact hperm
  · intro i hi m hm
    refine ⟨collectStep urls cfg envs i, List.mem_map_of_mem _ hi,
      collectStep_index _ _ _ _, collectStep_url _ _ _ _, ?_⟩
    unfold collectStep
    rw [hm]

/-- Witness for C1: two URLs whose workers both crash, collected in
reversed completion order. -/
theorem scheduler_one_result_per_request_witness :
    (gatherResults ["u", "v"] cfgEx (fun _ => crashEnv) [1, 0]).length =
      (["u", "v"] : List String).length ∧
    (sortResults (gatherResults ["u", "v"] cfgEx (fun _ => crashEnv) [1, 0])).length =
      (["u", "v"] : List String).length ∧
    ((gatherResults ["u", "v"] cfgEx (fun _ => crashEnv) [1, 0]).map Entry.index).Perm
      (List.range (["u", "v"] : List String).length) ∧
    (∀ i ∈ ([1, 0] : List Nat), ∀ m,
      fetch_url i ((["u", "v"] : List String).getD i "") cfgEx.timeout cfgEx.max_bytes
        cfgEx.user_agent ((fun _ => crashEnv) i) = .error m →
      ∃ e ∈ gatherResults ["u", "v"] cfgEx (fun _ => crashEnv) [1, 0],
        e.index = i ∧ e.url = (["u", "v"] : List String).getD i "" ∧
        e.error = some ("Worker crashed: " ++ m)) :=
  scheduler_one_result_per_request ["u", "v"] cfgEx (fun _ => crashEnv) [1, 0] (by decide)

/-- C2: after collection in arbitrary completion order, the result
sequence handed to rendering is sorted ascending by index, its index
sequence is exactly 0..n-1, and the result at output position i carries
the input URL at position i of the deduplicated list. -/
theorem sequencer_restores_input_order
    (urls : List String) (cfg : Config) (envs : Nat → FetchEnv) (order : List Nat)
    (hperm : order.Perm (List.range urls.length)) :
    (sortResults (gatherResults urls cfg envs order)).Sorted entryLE ∧
    (sortResults (gatherResults urls cfg envs order)).map Entry.index =
      List.range urls.length ∧
    ∀ i, i < urls.length →
      ((sortResults (gatherResults urls cfg envs order)).getD i dummyEntry).index = i ∧
      ((sortResults (gatherResults urls cfg envs order)).getD i dummyEntry).url =
        urls.getD i "" :=
  ⟨sortResults_sorted _, final_map_index urls cfg envs order hperm,
   fun i hi => final_entry_at urls cfg envs order hperm i hi⟩

/-- Witness for C2: two successful fetches completing in reversed order. -/
theorem sequencer_restores_input_order_witness :
    (sortResults (gatherResults ["u", "v"] cfgEx (fun _ => okEnv) [1, 0])).Sorted entryLE ∧
    (sortResults (gatherResults ["u", "v"] cfgEx (fun _ => okEnv) [1, 0])).map Entry.index =
      List.range (["u", "v"] : List String).length ∧
    ∀ i, i < (["u", "v"] : List String).length →
      ((sortResults (gatherResults ["u", "v"] cfgEx (fun _ => okEnv) [1, 0])).getD i
        dummyEntry).index = i ∧
      ((sortResults (gatherResults ["u", "v"] cfgEx (fun _ => okEnv) [1, 0])).getD i
        dummyEntry).url = (["u", "v"] : List String).getD i "" :=
  sequencer_restores_input_order ["u", "v"] cfgEx (fun _ => okEnv) [1, 0] (by decide)

/-- C9: when the resolved deduplicated URL sequence is empty, the run
aborts with exit status 1 and the "no targets" diagnostic on the error
stream; the outcome is the same for every fetch environment and
completion order, so no network activity takes place. -/
theorem no_targets_aborts
    (direct : List String) (fileLines : List (List String)) (cfg : Config)
    (envs : Nat → FetchEnv) (order : List Nat)
    (h : load_urls direct fileLines = []) :
    run_main direct fileLines cfg envs order =
      .aborted 1 "No URLs provided. Use --url or --urls-file to supply targets." := by
  simp [run_main, h]

/-- Witness for C9: an empty-string URL and a list file holding only a
comment and a blank line resolve to no targets. -/
theorem no_targets_aborts_witness :
    run_main [""] [["# only a comment", "   "]] cfgEx (fun _ => okEnv) [] =
      .aborted 1 "No URLs provided. Use --url or --urls-file to supply targets." :=
  no_targets_aborts [""] [["# only a comment", "   "]] cfgEx (fun _ => okEnv) []
    (by decide)

/-- Counterexample to C3: for a URL without a scheme, the `Request`
construction on line 128 raises `ValueError` outside the `try` block, so
the exception escapes `fetch_url` instead of being converted to a
failure-shaped result. -/
theorem fetch_url_raises_counterexample :
    fetch_url 0 "not-a-url" 15 1000000 "UA"
      { requestError := some "unknown url type: not-a-url",
        openResult := .urlError "never reached", elapsed := 0,
        decode := fun _ _ => none, decodeUtf8 := fun _ => "" } =
      .error "unknown url type: not-a-url" := rfl

/-- C3 (amended): whenever the `Request` construction itself does not
raise, `fetch_url` returns a result value and never raises: every failure
path inside the opened request (HTTP error, transport error, any other
exception) is caught and converted to a failure-shaped result.  An
exception from request construction (a malformed URL) propagates out of
`fetch_url` and is only recovered by the scheduler's defensive catch. -/
theorem fetch_url_total_unless_request_raises
    (i : Nat) (url : String) (t : ℚ) (mb : Nat) (ua : String) (env : FetchEnv)
    (h : env.requestError = none) :
    ∃ e, fetch_url i url t mb ua env = .ok e := by
  obtain ⟨re, op, el, d, d8⟩ := env
  cases h
  cases op <;> exact ⟨_, rfl⟩

/-- Witness for C3 (amended) at a transport-error environment. -/
theorem fetch_url_total_unless_request_raises_witness :
    ∃ e, fetch_url 0 "http://a" 15 1000000 "UA" urlErrEnv = .ok e :=
  fetch_url_total_unless_request_raises 0 "http://a" 15 1000000 "UA" urlErrEnv rfl

/-- Counterexample to C4: with an explicit worker count of 0, 100 URLs
and 4 CPUs, `compute_workers` falls through to the default policy and
returns 20, not `max 1 0 = 1` as the claim demands for every supplied
integer including 0: Python's `if args.max_workers:` treats 0 as unset. -/
theorem compute_workers_zero_counterexample :
    compute_workers (some 0) (some 4) 100 = 20 ∧ max 1 (0 : Int) ≠ 20 := by decide

/-- C4 (amended): worker count is 1 when there is at most one request;
otherwise `max 1 supplied` whenever the caller supplied a nonzero worker
count (so negative values yield 1); otherwise — including an explicit 0 —
`max 1 (min total_requests (cpu_count * 5))` where a falsy `os.cpu_count()`
is replaced by 4. -/
theorem compute_workers_policy
    (max_workers : Option Int) (cpu_count : Option Nat) (total : Nat) :
    (total ≤ 1 → compute_workers max_workers cpu_count total = 1) ∧
    (∀ w, max_workers = some w → w ≠ 0 → 1 < total →
      compute_workers max_workers cpu_count total = max 1 w) ∧
    ((max_workers = none ∨ max_workers = some 0) → 1 < total →
      compute_workers max_workers cpu_count total =
        max 1 (min (total : Int) ((pyCpu cpu_count : Int) * 5))) := by
  refine ⟨?_, ?_, ?_⟩
  · intro h
    simp only [compute_workers]
    rw [if_pos h]
  · intro w hw hwz htot
    subst hw
    simp only [compute_workers]
    rw [if_neg (Nat.not_le.mpr htot)]
    have ht : truthyOptInt (some w) = true := by
      simp [truthyOptInt, hwz]
    rw [if_pos ht]
    rfl
  · intro hmw htot
    simp only [compute_workers]
    rw [if_neg (Nat.not_le.mpr htot)]
    have ht : truthyOptInt max_workers = false := by
      rcases hmw with h | h <;> simp [h, truthyOptInt]
    rw [if_neg (by simp [ht])]

/-- Witness for C4 (amended): all three branches at concrete inputs. -/
theorem compute_workers_policy_witness :
    compute_workers (some 3) (some 4) 100 = max 1 3 :=
  (compute_workers_policy (some 3) (some 4) 100).2.1 3 rfl (by decide) (by decide)

/-- C5: on a received response, `fetch_url` reads at most `max_bytes + 1`
bytes; when more than `max_bytes` bytes were available it reports
`truncated = true` and hands exactly the first `max_bytes` bytes to body
decoding; when at most `max_bytes` bytes were available it reports
`truncated = false` and keeps the full body. -/
theorem truncation_policy
    (i : Nat) (url : String) (t : ℚ) (mb : Nat) (ua : String) (env : FetchEnv)
    (r : HttpResponse) (e : Entry)
    (hreq : env.requestError = none) (hop : env.openResult = .success r)
    (hok : fetch_url i url t mb ua env = .ok e) :
    (r.available.take (mb + 1)).length ≤ mb + 1 ∧
    (mb < r.available.length →
      e.truncated = some true ∧
      e.content = some (decodeBody env r.charset (r.available.take mb))) ∧
    (r.available.length ≤ mb →
      e.truncated = some false ∧
      e.content = some (decodeBody env r.charset r.available)) := by
  obtain ⟨re, op, el, d, d8⟩ := env
  cases hreq
  cases hop
  cases hok
  refine ⟨?_, ?_, ?_⟩
  · rw [List.length_take]
    exact Nat.min_le_left _ _
  · intro hlt
    have hraw : (r.available.take (mb + 1)).length = mb + 1 := by
      rw [List.length_take]
      omega
    have htr : decide ((r.available.take (mb + 1)).length > mb) = true := by
      rw [hraw]
      simp
    have hmin : min mb (mb + 1) = mb := Nat.min_eq_left (Nat.le_succ mb)
    constructor
    · show some (decide ((r.available.take (mb + 1)).length > mb)) = some true
      rw [htr]
    · show some (decodeBody _ r.charset _) = _
      simp only [htr, if_true, List.take_take, hmin]
  · intro hle
    have hraw : (r.available.take (mb + 1)).length = r.available.length := by
      rw [List.length_take]
      omega
    have htr : decide ((r.available.take (mb + 1)).length > mb) = false := by
      rw [hraw]
      simp
      omega
    constructor
    · show some (decide ((r.available.take (mb + 1)).length > mb)) = some false
      rw [htr]
    · show some (decodeBody _ r.charset _) = _
      simp only [htr, Bool.false_eq_true, if_false]
      rw [List.take_of_length_le (Nat.le_trans hle (Nat.le_succ mb))]

/-- Witness for C5: three bytes available with a one-byte cap. -/
theorem truncation_policy_witness :
    (respW.available.take (1 + 1)).length ≤ 1 + 1 ∧
    (1 < respW.available.length →
      entryW.truncated = some true ∧
      entryW.content = some (decodeBody truncEnv respW.charset (respW.available.take 1))) ∧
    (respW.available.length ≤ 1 →
      entryW.truncated = some false ∧
      entryW.content = some (decodeBody truncEnv respW.charset respW.available)) :=
  truncation_policy 0 "u" 15 1 "UA" truncEnv respW entryW rfl rfl rfl

/-- Counterexample to C8: a run whose single worker crashes finishes with
a finalized ResultSet whose only entry is the scheduler-synthesized
"Worker crashed" failure, and that entry has no `elapsed_seconds` key at
all — the synthesized dictionary of lines 303-309 carries only `index`,
`url` and `error`. -/
theorem crashed_result_lacks_elapsed_counterexample :
    run_main ["http://a"] [] cfgEx (fun _ => crashEnv) [0] =
      .finished [{ index := 0, url := "http://a",
                   error := some "Worker crashed: boom" }] ∧
    ({ index := 0, url := "http://a",
       error := some "Worker crashed: boom" } : Entry).elapsed_seconds = none := by
  constructor
  · decide
  · rfl

/-- C8 (amended): every result dictionary returned by `fetch_url` —
success or failure — carries `elapsed_seconds = round(elapsed, 3)`; the
scheduler-synthesized "Worker crashed" entries carry no `elapsed_seconds`
key. -/
theorem elapsed_field_policy
    (urls : List String) (cfg : Config) (envs : Nat → FetchEnv) (i : Nat) :
    (∀ e, fetch_url i (urls.getD i "") cfg.timeout cfg.max_bytes cfg.user_agent (envs i) =
        .ok e → e.elapsed_seconds = some (pyRound3 (envs i).elapsed)) ∧
    (∀ m, fetch_url i (urls.getD i "") cfg.timeout cfg.max_bytes cfg.user_agent (envs i) =
        .error m → (collectStep urls cfg envs i).elapsed_seconds = none) := by
  constructor
  · intro e h
    exact fetch_url_ok_elapsed _ _ _ _ _ _ _ h
  · intro m h
    unfold collectStep
    rw [h]

/-- Witness for C8 (amended): a crashing worker's synthesized entry has no
elapsed time. -/
theorem elapsed_field_policy_witness :
    (collectStep ["u"] cfgEx (fun _ => crashEnv) 0).elapsed_seconds = none :=
  (elapsed_field_policy ["u"] cfgEx (fun _ => crashEnv) 0).2 "boom" rfl

/-- C7: every failure result's error message carries exactly one of the
three verbatim prefixes: "HTTPError: " together with a status field,
"URLError: " with no status field, or "Unexpected error: " with no status
field. -/
theorem failure_message_prefixes
    (i : Nat) (url : String) (t : ℚ) (mb : Nat) (ua : String) (env : FetchEnv)
    (e : Entry) (msg : String)
    (hok : fetch_url i url t mb ua env = .ok e) (herr : e.error = some msg) :
    (prefixedBy "HTTPError: " msg ∧ e.status ≠ none ∧
      ¬(prefixedBy "URLError: " msg ∧ e.status = none) ∧
      ¬(prefixedBy "Unexpected error: " msg ∧ e.status = none)) ∨
    (prefixedBy "URLError: " msg ∧ e.status = none ∧
      ¬(prefixedBy "HTTPError: " msg ∧ e.status ≠ none) ∧
      ¬(prefixedBy "Unexpected error: " msg ∧ e.status = none)) ∨
    (prefixedBy "Unexpected error: " msg ∧ e.status = none ∧
      ¬(prefixedBy "HTTPError: " msg ∧ e.status ≠ none) ∧
      ¬(prefixedBy "URLError: " msg ∧ e.status = none)) := by
  obtain ⟨re, op, el, d, d8⟩ := env
  cases re with
  | some m => exact absurd hok (by simp [fetch_url])
  | none =>
    cases op with
    | success r =>
        cases hok
        exact absurd herr (by simp)
    | httpError code reason hct =>
        cases hok
        have heq : "HTTPError: " ++ toString code ++ " " ++ reason = msg := by
          simpa using herr
        have hmsg : msg = "HTTPError: " ++ (toString code ++ (" " ++ reason)) := by
          rw [← heq, String.append_assoc, String.append_assoc]
        refine Or.inl ⟨⟨_, hmsg⟩, by simp, ?_, ?_⟩
        · rintro ⟨-, hnone⟩
          simp at hnone
        · rintro ⟨-, hnone⟩
          simp at hnone
    | urlError reason =>
        cases hok
        have heq : "URLError: " ++ reason = msg := by
          simpa using herr
        have hmsg : msg = "URLError: " ++ reason := heq.symm
        refine Or.inr (Or.inl ⟨⟨reason, hmsg⟩, rfl, ?_, ?_⟩)
        · rintro ⟨-, hne⟩
          exact hne rfl
        · rintro ⟨hpre, -⟩
          exact not_prefixedBy_both "URLError: " "Unexpected error: " 1 'R' 'n'
            (by decide) (by decide) (by decide) msg ⟨reason, hmsg⟩ hpre
    | otherError m =>
        cases hok
        have heq : "Unexpected error: " ++ m = msg := by
          simpa using herr
        have hmsg : msg = "Unexpected error: " ++ m := heq.symm
        refine Or.inr (Or.inr ⟨⟨m, hmsg⟩, rfl, ?_, ?_⟩)
        · rintro ⟨-, hne⟩
          exact hne rfl
        · rintro ⟨hpre, -⟩
          exact not_prefixedBy_both "Unexpected error: " "URLError: " 1 'n' 'R'
            (by decide) (by decide) (by decide) msg ⟨m, hmsg⟩ hpre

/-- Witness for C7: a transport-level failure carries the "URLError: "
prefix with no status field and neither of the other two prefixes. -/
theorem failure_message_prefixes_witness :
    (prefixedBy "HTTPError: " ("URLError: " ++ "timed out") ∧ urlErrEntryW.status ≠ none ∧
      ¬(prefixedBy "URLError: " ("URLError: " ++ "timed out") ∧ urlErrEntryW.status = none) ∧
      ¬(prefixedBy "Unexpected error: " ("URLError: " ++ "timed out") ∧
        urlErrEntryW.status = none)) ∨
    (prefixedBy "URLError: " ("URLError: " ++ "timed out") ∧ urlErrEntryW.status = none ∧
      ¬(prefixedBy "HTTPError: " ("URLError: " ++ "timed out") ∧ urlErrEntryW.status ≠ none) ∧
      ¬(prefixedBy "Unexpected error: " ("URLError: " ++ "timed out") ∧
        urlErrEntryW.status = none)) ∨
    (prefixedBy "Unexpected error: " ("URLError: " ++ "timed out") ∧
      urlErrEntryW.status = none ∧
      ¬(prefixedBy "HTTPError: " ("URLError: " ++ "timed out") ∧ urlErrEntryW.status ≠ none) ∧
      ¬(prefixedBy "URLError: " ("URLError: " ++ "timed out") ∧ urlErrEntryW.status = none)) :=
  failure_message_prefixes 0 "u" 15 1000000 "UA" urlErrEnv urlErrEntryW
    ("URLError: " ++ "timed out") rfl rfl

/-- C6: the loaded URL sequence has no repeated entries, never contains
the empty string, is a subsequence of the combined input (direct
arguments followed by list-file entries), contains exactly the non-empty
combined entries, lists them in order of first occurrence, and on the
input a, b, a, c yields a, b, c. -/
theorem load_urls_dedup
    (direct : List String) (fileLines : List (List String)) :
    (load_urls direct fileLines).Nodup ∧
    "" ∉ load_urls direct fileLines ∧
    (load_urls direct fileLines).Sublist
      (direct ++ (fileLines.map read_urls_file).flatten) ∧
    (∀ u, u ∈ load_urls direct fileLines ↔
      (u ∈ direct ++ (fileLines.map read_urls_file).flatten ∧ u ≠ "")) ∧
    (load_urls direct fileLines).Pairwise (fun u v =>
      (direct ++ (fileLines.map read_urls_file).flatten).indexOf u <
        (direct ++ (fileLines.map read_urls_file).flatten).indexOf v) ∧
    load_urls ["a", "b", "a", "c"] [] = ["a", "b", "c"] := by
  refine ⟨nodup_dedupAux _ _, ?_, sublist_dedupAux _ _, ?_,
    pairwise_indexOf_dedupAux _ _, by decide⟩
  · intro hmem
    exact ((mem_dedupAux _ [] "").mp hmem).2.1 rfl
  · intro u
    rw [load_urls, mem_dedupAux]
    constructor
    · rintro ⟨h1, h2, -⟩
      exact ⟨h1, h2⟩
    · rintro ⟨h1, h2⟩
      exact ⟨h1, h2, List.not_mem_nil u⟩

/-- C10: trimming, blank-skipping and comment-skipping apply only to
list-file entries; every non-empty direct argument appears verbatim in
the loaded sequence; the output splits as deduplicated direct arguments
followed by deduplicated file entries; and in the concrete example the
direct entries " x " and "#keep" survive untrimmed and unskipped while
the file entries are trimmed and comment-filtered. -/
theorem direct_urls_verbatim
    (direct : List String) (fileLines : List (List String)) :
    (∀ lines s, s ∈ read_urls_file lines →
      ∃ raw ∈ lines, s = pyStrip raw ∧ s ≠ "" ∧ pyStartsWith "#" s = false) ∧
    (∀ d ∈ direct, d ≠ "" → d ∈ load_urls direct fileLines) ∧
    load_urls direct fileLines =
      dedupAux [] direct ++
        dedupAux (dedupSeen [] direct) ((fileLines.map read_urls_file).flatten) ∧
    load_urls [" x ", "#keep", ""] [[" x ", "# comment", "", "y "]] =
      [" x ", "#keep", "x", "y"] := by
  refine ⟨?_, ?_, dedupAux_append _ _ _, by decide⟩
  · intro lines s hs
    obtain ⟨raw, hraw, hline⟩ := List.mem_filterMap.mp hs
    refine ⟨raw, hraw, ?_⟩
    simp only [iterLine] at hline
    split at hline
    · cases hline
    · cases hline
      rename_i h
      simp only [Bool.or_eq_true, decide_eq_true_eq, not_or, Bool.not_eq_true] at h
      exact ⟨rfl, h.1, h.2⟩
  · intro d hd hne
    rw [load_urls]
    exact (mem_dedupAux _ [] d).mpr
      ⟨List.mem_append_left _ hd, hne, List.not_mem_nil d⟩

/-- Witness for C10: a direct argument with surrounding whitespace is
loaded verbatim. -/
theorem direct_urls_verbatim_witness :
    " x " ∈ load_urls [" x ", "#keep", ""] [[" x ", "# comment", "", "y "]] :=
  (direct_urls_verbatim [" x ", "#keep", ""] [[" x ", "# comment", "", "y "]]).2.1
    " x " (by decide) (by decide)
